import Mathlib

/-!
Verification of the instrument-data parsing pipeline
(`instrument_data_parser_oo.py`, `create_dataframe.py`).

The Python source is shallowly embedded: pandas dataframes become lists of
association-list rows with an ordered column list, the filesystem becomes an
explicit structure mapping folders to walked entries and file paths to their
readable content, numpy float64 samples become exact fractions with
kernel-evaluable arithmetic, and per-file `try/except` handling becomes
`Except`.  Library code of the repository that is not available under `src/`
(`file_management`, `SintonFMT_LIB`) is modelled from the specification, as
marked in the corresponding doc comments.
-/

/-! ## Kernel-evaluable string helpers

Python string operations (`split`, `strip`, `replace`, `endswith`, `lower`,
substring tests) are implemented over `List Char` with structural or fuelled
recursion so that concrete runs reduce inside the kernel. -/

def splitOnCharL (sep : Char) : List Char → List (List Char)
  | [] => [[]]
  | c :: cs =>
      match splitOnCharL sep cs with
      | [] => [[]]
      | w :: ws => if c = sep then [] :: w :: ws else (c :: w) :: ws

/-- Python `s.split(sep)` for a one-character separator. -/
def splitOnCharS (sep : Char) (s : String) : List String :=
  (splitOnCharL sep s.data).map (fun l => String.mk l)

/-- Python `s.endswith(suffix)`. -/
def endsWithS (s suffix : String) : Bool :=
  s.data.reverse.take suffix.data.length = suffix.data.reverse

def isPrefixOfL : List Char → List Char → Bool
  | [], _ => true
  | _ :: _, [] => false
  | p :: ps, c :: cs => p = c && isPrefixOfL ps cs

/-- One scan step of Python `s.replace(pat, rep)`; the fuel is an upper bound
on the number of characters still to be examined, so `fuel = l.length`
realizes the full non-overlapping left-to-right replacement. -/
def replaceFuelL (pat rep : List Char) : Nat → List Char → List Char
  | 0, l => l
  | _ + 1, [] => []
  | fuel + 1, c :: cs =>
      if pat ≠ [] ∧ isPrefixOfL pat (c :: cs) then
        rep ++ replaceFuelL pat rep fuel ((c :: cs).drop pat.length)
      else
        c :: replaceFuelL pat rep fuel cs

/-- Python `s.replace(pat, rep)`: every non-overlapping occurrence, left to
right. -/
def replaceS (s pat rep : String) : String :=
  String.mk (replaceFuelL pat.data rep.data s.data.length s.data)

/-- Python `s.strip(chars)`: remove from both ends every character that is a
member of the given character set. -/
def stripCharsS (s chars : String) : String :=
  let cset := chars.data
  String.mk (((s.data.dropWhile (fun c => cset.contains c)).reverse.dropWhile
      (fun c => cset.contains c)).reverse)

/-- Python `s.strip()`: remove leading and trailing whitespace. -/
def trimS (s : String) : String :=
  String.mk (((s.data.dropWhile Char.isWhitespace).reverse.dropWhile
      Char.isWhitespace).reverse)

/-- Python `s.lower()` (ASCII, which is all the column names use). -/
def toLowerS (s : String) : String :=
  String.mk (s.data.map Char.toLower)

def containsSubL (l sub : List Char) : Bool :=
  match l with
  | [] => sub.isEmpty
  | _ :: tl => isPrefixOfL sub l || containsSubL tl sub

/-- Python `sub in s`. -/
def containsSubS (s sub : String) : Bool :=
  containsSubL s.data sub.data

/-- Python `path.split('\\')[-1]`, the base name of a Windows path (the source
builds and splits paths with backslashes). -/
def lastSplitBackslash (s : String) : String :=
  (splitOnCharS '\\' s).getLastD s

/-- Python `name.split('.')[0]`. -/
def headSplitDot (s : String) : String :=
  (splitOnCharS '.' s).headD ""

/-! ## Exact fractions

numpy float64 samples are modelled as exact fractions.  The arithmetic is
gcd-free (numerator and denominator simply grow), so every operation reduces
inside the kernel; the denominator is kept positive by construction. -/

structure Frac where
  num : Int
  den : Int
deriving DecidableEq

instance : OfNat Frac n := ⟨⟨Int.ofNat n, 1⟩⟩

def Frac.add (a b : Frac) : Frac := ⟨a.num * b.den + b.num * a.den, a.den * b.den⟩

def Frac.sub (a b : Frac) : Frac := ⟨a.num * b.den - b.num * a.den, a.den * b.den⟩

def Frac.mul (a b : Frac) : Frac := ⟨a.num * b.num, a.den * b.den⟩

/-- Division; the zero-divisor case is never reached by the modelled code
(the correction step guards it and interpolation divides by differences of a
strictly increasing grid). -/
def Frac.div (a b : Frac) : Frac :=
  if b.num = 0 then ⟨0, 1⟩
  else if b.num < 0 then ⟨-(a.num * b.den), a.den * (-b.num)⟩
  else ⟨a.num * b.den, a.den * b.num⟩

instance : Add Frac := ⟨Frac.add⟩
instance : Sub Frac := ⟨Frac.sub⟩
instance : Mul Frac := ⟨Frac.mul⟩
instance : Div Frac := ⟨Frac.div⟩

def Frac.blt (a b : Frac) : Bool := a.num * b.den < b.num * a.den

def Frac.ble (a b : Frac) : Bool := a.num * b.den ≤ b.num * a.den

def Frac.isZero (a : Frac) : Bool := a.num = 0

def Frac.ofNat (n : Nat) : Frac := ⟨Int.ofNat n, 1⟩

def fracSum (l : List Frac) : Frac := l.foldl Frac.add 0

/-! ## Cell values, rows and dataframes

A dataframe is an ordered column list together with rows; each row is the
(insertion-ordered) dictionary built for one file.  A cell that is absent
from a row is a pandas `NaN`. -/

structure DateTime where
  year : Nat
  month : Nat
  day : Nat
  hour : Nat
  minute : Nat
  second : Nat
deriving DecidableEq

inductive Value
  | str (s : String)
  | int (n : Int)
  | arr (a : List Frac)
  | bytes (b : List Frac)
  | dt (d : DateTime)
  | NaT
deriving DecidableEq

abbrev Row : Type := List (String × Value)

structure DF where
  cols : List String
  rows : List Row
deriving DecidableEq

/-- Reading one cell of a row: the value stored under the column key, or
`none` for a pandas missing value. -/
def cellv (r : Row) (c : String) : Option Value :=
  (List.find? (fun p => p.1 = c) r).map Prod.snd

/-- Python `dict` assignment `d[k] = v`: override in place if the key exists,
else append (insertion order preserved). -/
def dictInsert (d : Row) (k : String) (v : Value) : Row :=
  if d.any (fun p => p.1 = k) then
    d.map (fun p => if p.1 = k then (k, v) else p)
  else d ++ [(k, v)]

/-- Python `d.update(m)`. -/
def dictUpdate (d m : Row) : Row :=
  m.foldl (fun acc p => dictInsert acc p.1 p.2) d

def rowKeys (r : Row) : List String := r.map Prod.fst

/-- A one-row frame from a per-file dictionary
(`pd.DataFrame.from_dict(d, orient='index').T` and `pd.DataFrame([d])`). -/
def rowToDF (r : Row) : DF := ⟨rowKeys r, [r]⟩

/-- `pd.concat([df, frame], ignore_index=True)` with a one-row frame: columns
are unioned in order of first appearance, the row is appended. -/
def concatRow (df : DF) (r : Row) : DF :=
  ⟨df.cols ++ (rowKeys r).filter (fun k => ¬ df.cols.contains k), df.rows ++ [r]⟩

/-- The running `frames` value of the per-file loops: `None` before the first
success; `pd.concat` silently drops a `None` member, so a success always
appends one full row. -/
def appendRow : Option DF → Row → DF
  | none, r => rowToDF r
  | some df, r => concatRow df r

def colAllNA (df : DF) (c : String) : Bool :=
  df.rows.all (fun r => (cellv r c).isNone)

def colAllPresent (df : DF) (c : String) : Bool :=
  df.rows.all (fun r => (cellv r c).isSome)

/-- `frames.dropna(axis=1, how='all')`. -/
def dropAllNACols (df : DF) : DF :=
  ⟨df.cols.filter (fun c => ¬ colAllNA df c), df.rows⟩

/-- `frames.loc[:, frames.notna().all(axis=0)]`: keep only the columns with a
value in every row. -/
def keepPresentCols (df : DF) : DF :=
  ⟨df.cols.filter (fun c => colAllPresent df c), df.rows⟩

/-- `frames[c] = v` with a constant value. -/
def addConstCol (df : DF) (c : String) (v : Value) : DF :=
  ⟨if df.cols.contains c then df.cols else df.cols ++ [c],
   df.rows.map (fun r => dictInsert r c v)⟩

def enumRows : Nat → List Row → List (Nat × Row)
  | _, [] => []
  | i, r :: rs => (i, r) :: enumRows (i + 1) rs

/-- `frames.reset_index()`: the positional index becomes a leading `index`
column. -/
def resetIndex (df : DF) : DF :=
  ⟨"index" :: df.cols,
   (enumRows 0 df.rows).map (fun p => ("index", Value.int (Int.ofNat p.1)) :: p.2)⟩

def emptyDF : DF := ⟨[], []⟩

/-! ## Filesystem model

The lab file tree is an explicit structure: `walk` maps each configured
folder to its recursively walked `(dirpath, filename)` entries, `exif` and
`tiff` map an image path to the result of reading its tag dictionary, and
`mfr` maps a measurement-file path to its readable content. -/

structure WalkEntry where
  dirpath : String
  filename : String
deriving DecidableEq

inductive TagRead
  | tags (m : List (String × String))
  | err (msg : String)
deriving DecidableEq

structure MfrContent where
  isc_raw : List Frac
  voc_raw : List Frac
  intensity : List Frac
  vload : List Frac
  headerLines : List String
deriving DecidableEq

structure FS where
  walk : List (String × List WalkEntry)
  exif : List (String × TagRead)
  tiff : List (String × TagRead)
  mfr : List (String × MfrContent)
deriving DecidableEq

def alookup {α : Type} (l : List (String × α)) (k : String) : Option α :=
  (List.find? (fun p => p.1 = k) l).map Prod.snd

/-! ## Library code modelled from the spec -/

/-- Modelled from the spec: `file_management.get_filename_metadata` is not
under `src/`.  Per section 4.1 it parses delimiter-separated tokens (module
serial, cycle number, pressure, temperature) out of the base filename for the
given datatype tag, returning a mapping from field name to parsed value, and
raises `MetadataFormatError` when the filename does not match the expected
token pattern for that datatype; the caller treats this as a per-file
failure. -/
def get_filename_metadata (file : String) (datatype : String) :
    Except String (List (String × String)) :=
  match splitOnCharS '_' (headSplitDot (lastSplitBackslash file)) with
  | [moduleId, cycle, pressure, temperature] =>
      Except.ok [("module_id", moduleId), ("cycle", cycle), ("pressure", pressure),
        ("temperature", temperature), ("datatype", datatype)]
  | _ => Except.error "MetadataFormatError"

/-- Modelled from the spec: the raw measurement record of `SintonFMT_LIB`
(section 3): parallel numeric arrays of raw current, raw voltage, intensity
and load voltage, one entry per sample. -/
structure RawData where
  isc_raw : List Frac
  voc_raw : List Frac
  intensity : List Frac
  vload : List Frac
deriving DecidableEq

/-- Modelled from the spec: `SintonFMT_LIB.import_raw_data_from_file` is not
under `src/`.  Per section 4.2 it reads the measurement file into a numeric
data block plus the `key="value"` metadata lines, and fails with
`FileFormatError` when the data block cannot be parsed into equal-length
numeric columns; an unreadable path fails like any file open. -/
def import_raw_data_from_file (fs : FS) (path : String) :
    Except String (RawData × List String) :=
  match alookup fs.mfr path with
  | none => Except.error "FileNotFoundError"
  | some c =>
      if c.isc_raw.length = c.voc_raw.length
          ∧ c.isc_raw.length = c.intensity.length
          ∧ c.isc_raw.length = c.vload.length then
        Except.ok (⟨c.isc_raw, c.voc_raw, c.intensity, c.vload⟩, c.headerLines)
      else Except.error "FileFormatError"

/-- The series-resistance compensation constant of the modelled correction. -/
def series_resistance : Frac := ⟨1, 100⟩

/-- Modelled from the spec: `SintonFMT_LIB.correct_raw_data` is not under
`src/`.  Per section 4.3 it applies a deterministic, file-independent
correction (light-intensity normalization and series-resistance compensation)
producing a corrected record with the same array lengths, and numeric domain
errors (division by zero) surface as `NumericError`. -/
def correct_raw_data (d : RawData) : Except String RawData :=
  let ref := d.intensity.headD 1
  if ref.isZero then Except.error "NumericError"
  else
    Except.ok
      { isc_raw := d.isc_raw.map (fun x => x / ref),
        voc_raw := (d.voc_raw.zip d.isc_raw).map
          (fun p => p.1 - series_resistance * (p.2 / ref)),
        intensity := d.intensity.map (fun x => x / ref),
        vload := d.vload }

/-- The configuration-determined fixed grid length of the interpolation
target. -/
def interp_grid_size : Nat := 10

/-- The fixed load-voltage grid the corrected arrays are resampled onto. -/
def load_grid : List Frac := (List.range interp_grid_size).map Frac.ofNat

def strictlyIncreasing : List Frac → Bool
  | [] => true
  | [_] => true
  | x :: y :: rest => Frac.blt x y && strictlyIncreasing (y :: rest)

/-- Piecewise-linear interpolation through the sample pairs, clamped at both
ends (as numpy interpolation clamps outside the sample range). -/
def interp_pairs : List (Frac × Frac) → Frac → Frac
  | [], _ => 0
  | [(_, y)], _ => y
  | (x1, y1) :: (x2, y2) :: rest, t =>
      if Frac.ble t x1 then y1
      else if Frac.ble t x2 then y1 + (y2 - y1) * ((t - x1) / (x2 - x1))
      else interp_pairs ((x2, y2) :: rest) t

def interp1 (xs ys : List Frac) (t : Frac) : Frac :=
  interp_pairs (xs.zip ys) t

/-- Modelled from the spec: `SintonFMT_LIB.interpolate_load_data` is not under
`src/`.  Per section 4.4 it resamples the corrected current/voltage/intensity
arrays onto the shared fixed-size load-voltage grid by monotonic
(piecewise-linear) interpolation, producing arrays of the fixed,
configuration-determined length `interp_grid_size`, and fails with
`InterpolationError` when the input grid is non-monotonic or has fewer than
two points.  The returned mapping also carries the raw arrays, matching the
keys the orchestrator serializes. -/
def interpolate_load_data (d : RawData) : Except String Row :=
  if d.vload.length < 2 then Except.error "InterpolationError"
  else if strictlyIncreasing d.vload = false then Except.error "InterpolationError"
  else
    Except.ok [
      ("isc_array_raw", Value.arr d.isc_raw),
      ("isc_array_interp", Value.arr (load_grid.map (interp1 d.vload d.isc_raw))),
      ("intensity_array", Value.arr (load_grid.map (interp1 d.vload d.intensity))),
      ("voc_array_raw", Value.arr d.voc_raw),
      ("voc_array_interp", Value.arr (load_grid.map (interp1 d.vload d.voc_raw))),
      ("vload_array", Value.arr d.vload),
      ("vload_array_interp", Value.arr load_grid)]

/-! ## The orchestrator (`instrument_data_parser_oo.py`) -/

/-- `numpy.ndarray.tobytes()`: the raw byte buffer serializing the array
(8 bytes per float64 sample), modelled as a byte-buffer value carrying the
serialized samples. -/
def tobytes : Value → Value
  | Value.arr a => Value.bytes a
  | v => v

/-- The loop `for array in self.arrays: interpol_data[array] =
interpol_data[array].tobytes()`; a missing key raises `KeyError` inside the
per-file `try`. -/
def toBytesAll (arrays : List String) (d : Row) : Except String Row :=
  arrays.foldlM (fun acc a =>
    match cellv acc a with
    | some v => Except.ok (dictInsert acc a (tobytes v))
    | none => Except.error "KeyError") d

structure InstrumentDataParser where
  folder_locations : List String
  sqlite_file_path : String
  failed_files : List (String × String)
  arrays : List String
deriving DecidableEq

def parser_arrays : List String :=
  ["isc_array_raw", "isc_array_interp", "intensity_array",
   "voc_array_raw", "voc_array_interp", "vload_array", "vload_array_interp"]

/-- `InstrumentDataParser.__init__`: `self.failed_files = {}` is the empty
dictionary. -/
def InstrumentDataParser.init (folder_locations : List String)
    (sqlite_file_path : String) : InstrumentDataParser :=
  ⟨folder_locations, sqlite_file_path, [], parser_arrays⟩

/-- `extract_image_metadata`: EXIF tags for `.jpg`, the TIFF tag dictionary
for `.tif`; any other extension falls through both branches and the function
returns Python `None`. -/
def extract_image_metadata (fs : FS) (image_file : String) :
    Except String (Option (List (String × String))) :=
  if endsWithS image_file ".jpg" then
    match alookup fs.exif image_file with
    | some (TagRead.tags m) => Except.ok (some m)
    | some (TagRead.err e) => Except.error e
    | none => Except.error "FileNotFoundError"
  else if endsWithS image_file ".tif" then
    match alookup fs.tiff image_file with
    | some (TagRead.tags m) => Except.ok (some m)
    | some (TagRead.err e) => Except.error e
    | none => Except.error "FileNotFoundError"
  else Except.ok none

/-- `get_files_from_folders`: walk each folder, keep the names ending in the
extension, collecting either the base name before the first dot or the joined
path. -/
def get_files_from_folders (fs : FS) (folder_list : List String)
    (filetype : String) (filename_only : Bool) : List String :=
  folder_list.foldl (fun acc folder =>
    ((alookup fs.walk folder).getD []).foldl (fun acc2 e =>
      if endsWithS e.filename ("." ++ filetype) then
        acc2 ++ [if filename_only then headSplitDot e.filename
                 else e.dirpath ++ "\\" ++ e.filename]
      else acc2) acc) []

/-- The body of the per-file `try` of `parse_image_metadata`: filename
metadata, image metadata, merge, and the derived `filename` field.  When
`extract_image_metadata` returned `None`, the source's
`exif_data.update(...)` raises `AttributeError`. -/
def imageRow (fs : FS) (file : String) : Except String Row := do
  let metadata_dict ← get_filename_metadata file "el"
  let exifOpt ← extract_image_metadata fs file
  match exifOpt with
  | none => Except.error "AttributeError"
  | some exif0 =>
      let exif_data : Row := exif0.map (fun p => (p.1, Value.str p.2))
      let exif_data := dictUpdate exif_data
        (metadata_dict.map (fun p => (p.1, Value.str p.2)))
      let exif_data := dictInsert exif_data "filename"
        (Value.str (lastSplitBackslash file))
      Except.ok exif_data

def exOk {ε α : Type} : Except ε α → Bool
  | Except.ok _ => true
  | Except.error _ => false

/-- One iteration of a per-file loop: a success appends the full record, a
failure appends the file path to the failure list and continues. -/
def loopStep (pf : String → Except String Row)
    (acc : Option DF × List String) (file : String) : Option DF × List String :=
  match pf file with
  | Except.ok row => (some (appendRow acc.1 row), acc.2)
  | Except.error _ => (acc.1, acc.2 ++ [file])

def runLoop (pf : String → Except String Row) (files : List String) :
    Option DF × List String :=
  files.foldl (loopStep pf) (none, [])

def imageFiles (p : InstrumentDataParser) (fs : FS) : List String :=
  get_files_from_folders fs p.folder_locations "jpg" false

def imageAgg (p : InstrumentDataParser) (fs : FS) : Option DF × List String :=
  runLoop (imageRow fs) (imageFiles p fs)

/-- The post-loop block of `parse_image_metadata`: drop all-missing columns,
keep only fully populated columns, add the constant `camera` label, reset the
index; with no successful file the result is the empty frame. -/
def postImage : Option DF → DF
  | some frames =>
      resetIndex (addConstCol (keepPresentCols (dropAllNACols frames))
        "camera" (Value.str "EL_CCD"))
  | none => emptyDF

/-- `parse_image_metadata`, threading the instance state: the method assigns
no attribute of `self`, so the state it hands back is the one it received. -/
def InstrumentDataParser.parse_image_metadata (p : InstrumentDataParser)
    (fs : FS) : (DF × List String) × InstrumentDataParser :=
  ((postImage (imageAgg p fs).1, (imageAgg p fs).2), p)

/-- Lines 118-121 of the source: the companion text file is looked up by
`filename.replace('IVT', '').strip('.mfr')`, and on a hit the stored name is
`filename.replace('mfr', 'txt')`. -/
def txt_file_value (filename : String) (txt_filenames : List String) : String :=
  if txt_filenames.contains (stripCharsS (replaceS filename "IVT" "") ".mfr") then
    replaceS filename "mfr" "txt"
  else "N/A"

/-- The dict comprehension over the metadata block: every line containing
`=` contributes `key: value` with quotes removed and whitespace stripped
(`item.split('=')[1]` is the chunk after the first `=`). -/
def parseContentLines (lines : List String) : Row :=
  lines.foldl (fun acc item =>
    let parts := splitOnCharS '=' item
    if 2 ≤ parts.length then
      dictInsert acc (parts.headD "")
        (Value.str (trimS (replaceS (parts.getD 1 "") "\"" "")))
    else acc) []

/-- The body of the per-file `try` of `parse_sinton_fmt_metadata`. -/
def sintonRow (fs : FS) (txt_filenames : List String) (arrays : List String)
    (file : String) : Except String Row := do
  let dc ← import_raw_data_from_file fs file
  let metadata_dict ← get_filename_metadata file "iv"
  let corrected_data ← correct_raw_data dc.1
  let interpol_data ← interpolate_load_data corrected_data
  let interpol_data ← toBytesAll arrays interpol_data
  let content := parseContentLines dc.2
  let content := dictUpdate content
    (metadata_dict.map (fun p => (p.1, Value.str p.2)))
  let content := dictUpdate content interpol_data
  let content := dictInsert content "filepath" (Value.str file)
  let filename := lastSplitBackslash file
  let content := dictInsert content "filename" (Value.str filename)
  let content := dictInsert content "txt_file"
    (Value.str (txt_file_value filename txt_filenames))
  Except.ok content

def sintonFiles (p : InstrumentDataParser) (fs : FS) : List String :=
  get_files_from_folders fs p.folder_locations "mfr" false

def sintonTxtNames (p : InstrumentDataParser) (fs : FS) : List String :=
  get_files_from_folders fs p.folder_locations "txt" true

def sintonAgg (p : InstrumentDataParser) (fs : FS) : Option DF × List String :=
  runLoop (sintonRow fs (sintonTxtNames p fs) p.arrays) (sintonFiles p fs)

/-- Python `str()` as `astype(str)` applies it to a cell; a missing cell (a
pandas float `NaN`) renders as the text `"nan"`.  Array columns are excluded
from the coercion in the source, so the buffer cases do not arise there. -/
def pyStrCell : Option Value → String
  | none => "nan"
  | some (Value.str s) => s
  | some (Value.int n) => toString n
  | some (Value.arr _) => "ndarray"
  | some (Value.bytes _) => "bytesbuf"
  | some (Value.dt _) => "datetimeval"
  | some Value.NaT => "NaT"

/-- `frames[col] = frames[col].astype(str)` for one column. -/
def coerceColToStr (df : DF) (c : String) : DF :=
  ⟨df.cols, df.rows.map (fun r => dictInsert r c (Value.str (pyStrCell (cellv r c))))⟩

/-- `frames[col] = frames[col].apply(lambda x: NaN if x.strip() == "" else x)`
for one column: a blank string becomes a missing value. -/
def blankColToNA (df : DF) (c : String) : DF :=
  ⟨df.cols, df.rows.map (fun r =>
    match cellv r c with
    | some (Value.str s) => if trimS s = "" then r.filter (fun p => ¬ p.1 = c) else r
    | _ => r)⟩

def nonArrayColsOf (arrays : List String) (df : DF) : List String :=
  df.cols.filter (fun c => ¬ arrays.contains c)

/-- The post-loop coercion of `parse_sinton_fmt_metadata`: for every
non-array column, coerce to text and then blank out empty strings. -/
def coerceNonArrayCols (arrays : List String) (df : DF) : DF :=
  (nonArrayColsOf arrays df).foldl (fun d c => blankColToNA (coerceColToStr d c) c) df

/-- The coerced aggregate frame of `parse_sinton_fmt_metadata`, before the
column drop and index reset (lines 132-139 of the source). -/
def sintonCoerced (p : InstrumentDataParser) (fs : FS) : Option DF :=
  ((sintonAgg p fs).1).map (coerceNonArrayCols p.arrays)

def postSinton (arrays : List String) : Option DF → DF
  | some frames => resetIndex (keepPresentCols (coerceNonArrayCols arrays frames))
  | none => emptyDF

/-- `parse_sinton_fmt_metadata`, threading the instance state as for the
image method. -/
def InstrumentDataParser.parse_sinton_fmt_metadata (p : InstrumentDataParser)
    (fs : FS) : (DF × List String) × InstrumentDataParser :=
  ((postSinton p.arrays (sintonAgg p fs).1, (sintonAgg p fs).2), p)

/-! ## The formatter (`create_dataframe.py`)

`datetime.strptime` is modelled after CPython's `_strptime`: each directive
compiles to a regular-expression alternation (`%Y` is exactly four digits,
`%m` is `1[0-2]|0[1-9]|[1-9]`, and so on), matching backtracks across
directives, the whole string must be consumed, and the matched fields must
form a constructible `datetime` (real calendar day, seconds below 60). -/

inductive FTok
  | fY | fmon | fday | fH | fMin | fS
  | lit (c : Char)
  | ws
deriving DecidableEq

def digitVal (c : Char) : Nat := c.toNat - '0'.toNat

/-- Candidate matches of one directive, in the alternation (backtracking)
order of the compiled regular expression: each candidate is the parsed value
and the remaining input. -/
def candsFor : FTok → List Char → List (Nat × List Char)
  | FTok.fY, a :: b :: c :: d :: rest =>
      if a.isDigit ∧ b.isDigit ∧ c.isDigit ∧ d.isDigit then
        [(digitVal a * 1000 + digitVal b * 100 + digitVal c * 10 + digitVal d, rest)]
      else []
  | FTok.fY, _ => []
  | FTok.fmon, a :: b :: rest =>
      (if a = '1' ∧ (b = '0' ∨ b = '1' ∨ b = '2') then [(10 + digitVal b, rest)] else [])
      ++ (if a = '0' ∧ b.isDigit ∧ b ≠ '0' then [(digitVal b, rest)] else [])
      ++ (if a.isDigit ∧ a ≠ '0' then [(digitVal a, b :: rest)] else [])
  | FTok.fmon, [a] => if a.isDigit ∧ a ≠ '0' then [(digitVal a, [])] else []
  | FTok.fmon, [] => []
  | FTok.fday, a :: b :: rest =>
      (if a = '3' ∧ (b = '0' ∨ b = '1') then [(30 + digitVal b, rest)] else [])
      ++ (if (a = '1' ∨ a = '2') ∧ b.isDigit then [(digitVal a * 10 + digitVal b, rest)] else [])
      ++ (if a = '0' ∧ b.isDigit ∧ b ≠ '0' then [(digitVal b, rest)] else [])
      ++ (if a.isDigit ∧ a ≠ '0' then [(digitVal a, b :: rest)] else [])
  | FTok.fday, [a] => if a.isDigit ∧ a ≠ '0' then [(digitVal a, [])] else []
  | FTok.fday, [] => []
  | FTok.fH, a :: b :: rest =>
      (if a = '2' ∧ (b = '0' ∨ b = '1' ∨ b = '2' ∨ b = '3') then [(20 + digitVal b, rest)] else [])
      ++ (if (a = '0' ∨ a = '1') ∧ b.isDigit then [(digitVal a * 10 + digitVal b, rest)] else [])
      ++ (if a.isDigit then [(digitVal a, b :: rest)] else [])
  | FTok.fH, [a] => if a.isDigit then [(digitVal a, [])] else []
  | FTok.fH, [] => []
  | FTok.fMin, a :: b :: rest =>
      (if ('0' ≤ a ∧ a ≤ '5') ∧ b.isDigit then [(digitVal a * 10 + digitVal b, rest)] else [])
      ++ (if a.isDigit then [(digitVal a, b :: rest)] else [])
  | FTok.fMin, [a] => if a.isDigit then [(digitVal a, [])] else []
  | FTok.fMin, [] => []
  | FTok.fS, a :: b :: rest =>
      (if a = '6' ∧ (b = '0' ∨ b = '1') then [(60 + digitVal b, rest)] else [])
      ++ (if ('0' ≤ a ∧ a ≤ '5') ∧ b.isDigit then [(digitVal a * 10 + digitVal b, rest)] else [])
      ++ (if a.isDigit then [(digitVal a, b :: rest)] else [])
  | FTok.fS, [a] => if a.isDigit then [(digitVal a, [])] else []
  | FTok.fS, [] => []
  | FTok.lit c, x :: rest => if x = c then [(0, rest)] else []
  | FTok.lit _, [] => []
  | FTok.ws, l =>
      let k := (l.takeWhile Char.isWhitespace).length
      (List.range k).map (fun i => (0, l.drop (k - i)))

def firstSomeL {α β : Type} : List α → (α → Option β) → Option β
  | [], _ => none
  | x :: xs, f =>
      match f x with
      | some b => some b
      | none => firstSomeL xs f

def setTok (pd : DateTime) : FTok → Nat → DateTime
  | FTok.fY, v => { pd with year := v }
  | FTok.fmon, v => { pd with month := v }
  | FTok.fday, v => { pd with day := v }
  | FTok.fH, v => { pd with hour := v }
  | FTok.fMin, v => { pd with minute := v }
  | FTok.fS, v => { pd with second := v }
  | FTok.lit _, _ => pd
  | FTok.ws, _ => pd

/-- Backtracking match of a directive sequence against the whole input
(`_strptime` rejects unconverted trailing data). -/
def matchToks : List FTok → List Char → DateTime → Option DateTime
  | [], cs, pd => if cs.isEmpty then some pd else none
  | t :: ts, cs, pd =>
      firstSomeL (candsFor t cs) (fun vc => matchToks ts vc.2 (setTok pd t vc.1))

/-- The `strptime` defaults: year 1900, January 1, midnight. -/
def strptimeDefault : DateTime := ⟨1900, 1, 1, 0, 0, 0⟩

def isLeapYear (y : Nat) : Bool := (y % 4 = 0 ∧ y % 100 ≠ 0) ∨ y % 400 = 0

def daysInMonth (y m : Nat) : Nat :=
  if m = 2 then (if isLeapYear y then 29 else 28)
  else if m = 4 ∨ m = 6 ∨ m = 9 ∨ m = 11 then 30 else 31

/-- The `datetime` constructor's validation of the matched fields. -/
def validDateTime (d : DateTime) : Bool :=
  1 ≤ d.year ∧ 1 ≤ d.month ∧ d.month ≤ 12 ∧ 1 ≤ d.day
    ∧ d.day ≤ daysInMonth d.year d.month ∧ d.hour ≤ 23 ∧ d.minute ≤ 59
    ∧ d.second ≤ 59

/-- `datetime.strptime(s, fmt)` as an `Option`: `none` is the `ValueError`
the source catches. -/
def strptime (s : String) (fmt : List FTok) : Option DateTime :=
  match matchToks fmt s.data strptimeDefault with
  | some d => if validDateTime d then some d else none
  | none => none

def fmtY8 : List FTok := [FTok.fY, FTok.fmon, FTok.fday]

def fmtYdash : List FTok := [FTok.fY, FTok.lit '-', FTok.fmon, FTok.lit '-', FTok.fday]

def fmtDslash : List FTok := [FTok.fday, FTok.lit '/', FTok.fmon, FTok.lit '/', FTok.fY]

def fmtMslash : List FTok := [FTok.fmon, FTok.lit '/', FTok.fday, FTok.lit '/', FTok.fY]

def fmtY8T : List FTok :=
  [FTok.fY, FTok.fmon, FTok.fday, FTok.ws, FTok.fH, FTok.lit ':', FTok.fMin,
   FTok.lit ':', FTok.fS]

def fmtYdashT : List FTok :=
  [FTok.fY, FTok.lit '-', FTok.fmon, FTok.lit '-', FTok.fday, FTok.ws, FTok.fH,
   FTok.lit ':', FTok.fMin, FTok.lit ':', FTok.fS]

/-- The ordered candidate list of `parse_date`. -/
def date_formats : List (List FTok) :=
  [fmtY8, fmtYdash, fmtDslash, fmtMslash, fmtY8T, fmtYdashT]

/-- `parse_date`: `NaT` for a missing or non-string cell, otherwise the first
format in the ordered list that parses the stripped string wins, and `NaT`
when every attempt raises. -/
def parse_date (x : Option Value) : Value :=
  match x with
  | some (Value.str s) =>
      match firstSomeL date_formats (fun fmt => strptime (trimS s) fmt) with
      | some d => Value.dt d
      | none => Value.NaT
  | _ => Value.NaT

/-- The column-name test of `format_dataframe`:
`'date' in col.lower() or 'time' in col.lower()`. -/
def isDateTimeNamed (c : String) : Bool :=
  containsSubS (toLowerS c) "date" || containsSubS (toLowerS c) "time"

/-- The `dtype == 'object'` guard: a column of the aggregate tables is
object-typed when it stores Python objects (strings or buffers or arrays)
rather than a numeric dtype. -/
def colDtypeObject (df : DF) (c : String) : Bool :=
  df.rows.any (fun r =>
    match cellv r c with
    | some (Value.str _) => true
    | some (Value.bytes _) => true
    | some (Value.arr _) => true
    | _ => false)

def formatRowDates (df : DF) (r : Row) : Row :=
  df.cols.foldl (fun racc c =>
    if isDateTimeNamed c ∧ colDtypeObject df c then
      dictInsert racc c (parse_date (cellv racc c))
    else racc) r

/-- The date-reparse step of `format_dataframe` (lines 53-56 of the source):
every date/time-named object column is mapped through `parse_date`.  The
numeric-precision rendering and the style block are display-only and are not
modelled. -/
def format_dataframe_dates (df : DF) : DF :=
  ⟨df.cols, df.rows.map (formatRowDates df)⟩

/-! ## `create_viewable_dataframe` -/

def fracMean (a : List Frac) : Frac := fracSum a / Frac.ofNat a.length

def fracVariance (a : List Frac) : Frac :=
  fracSum (a.map (fun x => (x - fracMean a) * (x - fracMean a))) / Frac.ofNat a.length

/-- A fixed-precision square root (six decimal digits) standing in for the
float `numpy.std` square root. -/
def fracSqrtApprox (q : Frac) : Frac :=
  if q.num ≤ 0 then 0
  else ⟨Int.ofNat (Nat.sqrt ((q.num.toNat * 1000000000000) / q.den.toNat)), 1000000⟩

def fracStd (a : List Frac) : Frac := fracSqrtApprox (fracVariance a)

def natDigitLen (n : Nat) : Nat := (Nat.toDigits 10 n).length

def pow10F (k : Nat) : Frac := ⟨Int.ofNat (10 ^ k), 1⟩

def pow10Z (e : Int) : Frac :=
  if 0 ≤ e then pow10F e.toNat else ⟨1, Int.ofNat (10 ^ (-e).toNat)⟩

/-- Truncation of a nonnegative fraction to a natural number. -/
def fracFloorNat (q : Frac) : Nat := q.num.toNat / q.den.toNat

def padTo3 (n : Nat) : String :=
  if n < 10 then "00" ++ toString n
  else if n < 100 then "0" ++ toString n
  else toString n

def padTo2 (n : Nat) : String :=
  if n < 10 then "0" ++ toString n else toString n

/-- Python `f"{q:.3e}"` for the exact-fraction model of a float: mantissa in
`[1, 10)` rounded to three decimals, two-digit signed exponent. -/
def fmtSci3 (q : Frac) : String :=
  if q.num = 0 then "0.000e+00"
  else
    let r : Frac := if q.num < 0 then ⟨-q.num, q.den⟩ else ⟨q.num, q.den⟩
    let e0 : Int := Int.ofNat (natDigitLen r.num.toNat) - Int.ofNat (natDigitLen r.den.toNat)
    let cands : List Int := [e0 - 2, e0 - 1, e0, e0 + 1, e0 + 2]
    let e : Int := ((cands.find? (fun k =>
      Frac.ble (pow10Z k) r && Frac.blt r (pow10Z (k + 1)))).getD e0)
    let scaled : Nat := fracFloorNat ((r / pow10Z e) * ⟨1000, 1⟩ + ⟨1, 2⟩)
    let scaled2 : Nat := if scaled ≥ 10000 then 1000 else scaled
    let e2 : Int := if scaled ≥ 10000 then e + 1 else e
    (if q.num < 0 then "-" else "")
      ++ toString (scaled2 / 1000) ++ "." ++ padTo3 (scaled2 % 1000)
      ++ "e" ++ (if e2 < 0 then "-" else "+") ++ padTo2 e2.natAbs

/-- The f-string
`f"Array[{len(x)}] - Mean: {np.mean(x):.3e}, Std: {np.std(x):.3e}"`. -/
def summary_string (a : List Frac) : String :=
  "Array[" ++ toString a.length ++ "] - Mean: " ++ fmtSci3 (fracMean a)
    ++ ", Std: " ++ fmtSci3 (fracStd a)

/-- The lambda of `create_viewable_dataframe`: only a numpy array is replaced
by its summary string; every other value (in particular the raw byte buffers
the parser stores) passes through unchanged. -/
def viewCell : Value → Value
  | Value.arr a => Value.str (summary_string a)
  | v => v

def viewStep (dfcols : List String) (racc : Row) (c : String) : Row :=
  if dfcols.contains c then
    match cellv racc c with
    | some v => dictInsert racc c (viewCell v)
    | none => racc
  else racc

def viewRowFold (dfcols array_columns : List String) (r : Row) : Row :=
  array_columns.foldl (viewStep dfcols) r

/-- `create_viewable_dataframe(raw_data, array_columns)`: for each listed
column present in the table, apply the summary lambda cell-wise. -/
def create_viewable_dataframe (raw_data : DF) (array_columns : List String) : DF :=
  ⟨raw_data.cols, raw_data.rows.map (viewRowFold raw_data.cols array_columns)⟩

/-! ## Characterization of the per-file loops -/

def optRows : Option DF → List Row
  | none => []
  | some df => df.rows

theorem optRows_appendRow (o : Option DF) (r : Row) :
    (appendRow o r).rows = optRows o ++ [r] := by
  cases o with
  | none => rfl
  | some df => rfl

theorem loopAcc_snd (pf : String → Except String Row) (files : List String) :
    ∀ acc : Option DF × List String,
      (files.foldl (loopStep pf) acc).2
        = acc.2 ++ files.filter (fun f => !exOk (pf f)) := by
  induction files with
  | nil => intro acc; simp
  | cons f fsl ih =>
      intro acc
      simp only [List.foldl_cons, List.filter_cons]
      rw [ih]
      cases h : pf f with
      | ok row => simp [loopStep, h, exOk]
      | error e => simp [loopStep, h, exOk]

/-- The fully built records of the successful files, in order. -/
def okRows (pf : String → Except String Row) : List String → List Row
  | [] => []
  | f :: fsl =>
      match pf f with
      | Except.ok r => r :: okRows pf fsl
      | Except.error _ => okRows pf fsl

theorem loopAcc_rows (pf : String → Except String Row) (files : List String) :
    ∀ acc : Option DF × List String,
      optRows (files.foldl (loopStep pf) acc).1
        = optRows acc.1 ++ okRows pf files := by
  induction files with
  | nil => intro acc; simp [okRows]
  | cons f fsl ih =>
      intro acc
      simp only [List.foldl_cons]
      rw [ih]
      cases h : pf f with
      | ok row =>
          simp [loopStep, h, okRows, optRows, optRows_appendRow]
      | error e =>
          simp [loopStep, h, okRows]

theorem length_okRows (pf : String → Except String Row) (files : List String) :
    (okRows pf files).length = (files.filter (fun f => exOk (pf f))).length := by
  induction files with
  | nil => rfl
  | cons f fsl ih =>
      cases h : pf f with
      | ok row => simp [okRows, List.filter_cons, h, exOk, ih]
      | error e => simp [okRows, List.filter_cons, h, exOk, ih]

theorem enumRows_length : ∀ (i : Nat) (l : List Row), (enumRows i l).length = l.length := by
  intro i l
  induction l generalizing i with
  | nil => rfl
  | cons r rs ih => simp [enumRows, ih]

theorem resetIndex_rows_length (df : DF) :
    (resetIndex df).rows.length = df.rows.length := by
  simp [resetIndex, enumRows_length]

def rowCoerce (c : String) (r : Row) : Row :=
  let r1 := dictInsert r c (Value.str (pyStrCell (cellv r c)))
  match cellv r1 c with
  | some (Value.str s) => if trimS s = "" then r1.filter (fun p => ¬ p.1 = c) else r1
  | _ => r1

def rowCoerceFold (cs : List String) (r : Row) : Row :=
  cs.foldl (fun racc c => rowCoerce c racc) r

theorem coerceStep_rows (df : DF) (c : String) :
    (blankColToNA (coerceColToStr df c) c).rows = df.rows.map (rowCoerce c) := by
  simp only [blankColToNA, coerceColToStr, List.map_map]
  rfl

theorem coerceStep_cols (df : DF) (c : String) :
    (blankColToNA (coerceColToStr df c) c).cols = df.cols := rfl

theorem coerceFold_rows :
    ∀ (cs : List String) (df : DF),
      (cs.foldl (fun d c => blankColToNA (coerceColToStr d c) c) df).rows
        = df.rows.map (rowCoerceFold cs) := by
  intro cs
  induction cs with
  | nil =>
      intro df
      show df.rows = List.map id df.rows
      exact (List.map_id df.rows).symm
  | cons c cs ih =>
      intro df
      simp only [List.foldl_cons]
      rw [ih]
      rw [coerceStep_rows]
      rw [List.map_map]
      rfl

theorem coerceFold_cols :
    ∀ (cs : List String) (df : DF),
      (cs.foldl (fun d c => blankColToNA (coerceColToStr d c) c) df).cols = df.cols := by
  intro cs
  induction cs with
  | nil => intro df; rfl
  | cons c cs ih =>
      intro df
      simp only [List.foldl_cons]
      rw [ih]
      rfl

theorem coerceNonArrayCols_rows (arrays : List String) (df : DF) :
    (coerceNonArrayCols arrays df).rows
      = df.rows.map (rowCoerceFold (nonArrayColsOf arrays df)) := by
  simp [coerceNonArrayCols, coerceFold_rows]

theorem coerceNonArrayCols_cols (arrays : List String) (df : DF) :
    (coerceNonArrayCols arrays df).cols = df.cols := by
  simp [coerceNonArrayCols, coerceFold_cols]

theorem postImage_rows_length (o : Option DF) :
    (postImage o).rows.length = (optRows o).length := by
  cases o with
  | none => rfl
  | some df =>
      simp [postImage, resetIndex_rows_length, addConstCol, keepPresentCols,
        dropAllNACols, optRows]

theorem postSinton_rows_length (arrays : List String) (o : Option DF) :
    (postSinton arrays o).rows.length = (optRows o).length := by
  cases o with
  | none => rfl
  | some df =>
      simp [postSinton, resetIndex_rows_length, keepPresentCols,
        coerceNonArrayCols_rows, optRows]

/-- C1 (amended): every file whose per-file extraction raises is recorded in
the returned failure list — by its path alone, the reason being only printed —
it contributes no row to the aggregate table, and the remaining files are
still processed: the failure list is exactly the failing files in order, and
the table has exactly one row per successful file, for both
`parse_image_metadata` and `parse_sinton_fmt_metadata`. -/
theorem C1_per_file_failure_policy (p : InstrumentDataParser) (fs : FS) :
    ((p.parse_image_metadata fs).1.2
        = (imageFiles p fs).filter (fun f => !exOk (imageRow fs f)))
  ∧ ((p.parse_image_metadata fs).1.1.rows.length
        = ((imageFiles p fs).filter (fun f => exOk (imageRow fs f))).length)
  ∧ ((p.parse_sinton_fmt_metadata fs).1.2
        = (sintonFiles p fs).filter
            (fun f => !exOk (sintonRow fs (sintonTxtNames p fs) p.arrays f)))
  ∧ ((p.parse_sinton_fmt_metadata fs).1.1.rows.length
        = ((sintonFiles p fs).filter
            (fun f => exOk (sintonRow fs (sintonTxtNames p fs) p.arrays f))).length) := by
  refine ⟨?_, ?_, ?_, ?_⟩
  · show (imageAgg p fs).2 = _
    rw [imageAgg, runLoop, loopAcc_snd]
    simp
  · show (postImage (imageAgg p fs).1).rows.length = _
    rw [postImage_rows_length, imageAgg, runLoop, loopAcc_rows]
    simp [optRows, length_okRows]
  · show (sintonAgg p fs).2 = _
    rw [sintonAgg, runLoop, loopAcc_snd]
    simp
  · show (postSinton p.arrays (sintonAgg p fs).1).rows.length = _
    rw [postSinton_rows_length, sintonAgg, runLoop, loopAcc_rows]
    simp [optRows, length_okRows]

/-- C9: both parse methods are deterministic in the instance state and the
(unchanged) file tree, so a second run from the state returned by the first
produces the identical aggregate table and the identical failure list. -/
theorem C9_idempotent (folders : List String) (db : String) (fs : FS) :
    (((InstrumentDataParser.init folders db).parse_image_metadata fs).2.parse_image_metadata
        fs).1
      = ((InstrumentDataParser.init folders db).parse_image_metadata fs).1
  ∧ (((InstrumentDataParser.init folders db).parse_sinton_fmt_metadata
        fs).2.parse_sinton_fmt_metadata fs).1
      = ((InstrumentDataParser.init folders db).parse_sinton_fmt_metadata fs).1 :=
  ⟨rfl, rfl⟩

/-- C10: neither parse call assigns any attribute of the instance: the
threaded state comes back unchanged — in particular `failed_files` stays the
empty mapping set at construction, and `folder_locations`,
`sqlite_file_path` and `arrays` keep their constructed values — so failures
are reported only through the returned failure list. -/
theorem C10_no_state_mutation (p : InstrumentDataParser) (folders : List String)
    (db : String) (fs : FS) :
    ((p.parse_image_metadata fs).2 = p)
  ∧ ((p.parse_sinton_fmt_metadata fs).2 = p)
  ∧ ((InstrumentDataParser.init folders db).failed_files = [])
  ∧ (((InstrumentDataParser.init folders db).parse_image_metadata fs).2.failed_files = [])
  ∧ (((InstrumentDataParser.init folders db).parse_image_metadata fs).2.folder_locations
      = folders)
  ∧ (((InstrumentDataParser.init folders db).parse_image_metadata fs).2.sqlite_file_path = db)
  ∧ (((InstrumentDataParser.init folders db).parse_image_metadata fs).2.arrays = parser_arrays)
  ∧ (((InstrumentDataParser.init folders db).parse_sinton_fmt_metadata fs).2.failed_files = [])
  ∧ (((InstrumentDataParser.init folders db).parse_sinton_fmt_metadata fs).2.folder_locations
      = folders)
  ∧ (((InstrumentDataParser.init folders db).parse_sinton_fmt_metadata fs).2.sqlite_file_path
      = db)
  ∧ (((InstrumentDataParser.init folders db).parse_sinton_fmt_metadata fs).2.arrays
      = parser_arrays) :=
  ⟨rfl, rfl, rfl, rfl, rfl, rfl, rfl, rfl, rfl, rfl, rfl⟩

/-! ## Cell-level lemmas about dictionaries -/

theorem cellv_cons (p : String × Value) (r : Row) (c : String) :
    cellv (p :: r) c = if p.1 = c then some p.2 else cellv r c := by
  by_cases h : p.1 = c
  · simp [cellv, List.find?, h]
  · simp [cellv, List.find?, h]

theorem cellv_map_override_ne (r : Row) (k : String) (v : Value) (c : String)
    (h : c ≠ k) :
    cellv (r.map (fun p => if p.1 = k then (k, v) else p)) c = cellv r c := by
  induction r with
  | nil => rfl
  | cons p ps ih =>
      by_cases hp : p.1 = k
      · rw [List.map_cons, if_pos hp, cellv_cons, cellv_cons]
        rw [if_neg (by simpa using (Ne.symm h)), if_neg (by rw [hp]; exact Ne.symm h)]
        exact ih
      · rw [List.map_cons, if_neg hp, cellv_cons, cellv_cons]
        by_cases hc : p.1 = c
        · rw [if_pos hc, if_pos hc]
        · rw [if_neg hc, if_neg hc]; exact ih

theorem cellv_append_single_ne (r : Row) (k : String) (v : Value) (c : String)
    (h : c ≠ k) :
    cellv (r ++ [(k, v)]) c = cellv r c := by
  induction r with
  | nil =>
      show cellv [(k, v)] c = none
      rw [cellv_cons, if_neg (Ne.symm h)]
      rfl
  | cons p ps ih =>
      rw [List.cons_append, cellv_cons, cellv_cons]
      by_cases hc : p.1 = c
      · rw [if_pos hc, if_pos hc]
      · rw [if_neg hc, if_neg hc]; exact ih

theorem cellv_dictInsert_ne (r : Row) (k : String) (v : Value) (c : String)
    (h : c ≠ k) :
    cellv (dictInsert r k v) c = cellv r c := by
  unfold dictInsert
  split
  · exact cellv_map_override_ne r k v c h
  · exact cellv_append_single_ne r k v c h

theorem cellv_dictInsert_self (r : Row) (k : String) (v : Value) :
    cellv (dictInsert r k v) k = some v := by
  unfold dictInsert
  split
  case isTrue h =>
      induction r with
      | nil => simp at h
      | cons p ps ih =>
          by_cases hp : p.1 = k
          · rw [List.map_cons, if_pos hp, cellv_cons]
            simp
          · rw [List.map_cons, if_neg hp, cellv_cons, if_neg hp]
            apply ih
            simp only [List.any_cons, Bool.or_eq_true] at h
            rcases h with h | h
            · exact absurd (by simpa using h) hp
            · simpa using h
  case isFalse h =>
      induction r with
      | nil =>
          show cellv [(k, v)] k = some v
          rw [cellv_cons, if_pos rfl]
      | cons p ps ih =>
          rw [List.cons_append, cellv_cons]
          have hp : p.1 ≠ k := by
            intro he
            exact h (by simp [List.any_cons, he])
          rw [if_neg hp]
          apply ih
          intro h2
          exact h (by simp only [List.any_cons, Bool.or_eq_true]; right; exact h2)

theorem cellv_filter_self (r : Row) (c : String) :
    cellv (r.filter (fun p => ¬ p.1 = c)) c = none := by
  induction r with
  | nil => rfl
  | cons p ps ih =>
      rw [List.filter_cons]
      by_cases hp : p.1 = c
      · rw [if_neg (by simp [hp])]
        exact ih
      · rw [if_pos (by simp [hp]), cellv_cons, if_neg hp]
        exact ih

theorem cellv_filter_ne (r : Row) (c c2 : String) (h : c2 ≠ c) :
    cellv (r.filter (fun p => ¬ p.1 = c)) c2 = cellv r c2 := by
  induction r with
  | nil => rfl
  | cons p ps ih =>
      rw [List.filter_cons]
      by_cases hp : p.1 = c
      · rw [if_neg (by simp [hp]), cellv_cons, if_neg (by rw [hp]; exact Ne.symm h)]
        exact ih
      · rw [if_pos (by simp [hp]), cellv_cons, cellv_cons]
        by_cases hc : p.1 = c2
        · rw [if_pos hc, if_pos hc]
        · rw [if_neg hc, if_neg hc]; exact ih

/-! ## The text coercion, cell by cell -/

/-- A coerced cell: either missing (a blank was blanked out) or a non-blank
string. -/
def textOrMissing : Option Value → Bool
  | none => true
  | some (Value.str s) => if trimS s = "" then false else true
  | some _ => false

theorem rowCoerce_cell_self (c : String) (r : Row) :
    textOrMissing (cellv (rowCoerce c r) c) = true := by
  have h1 : cellv (dictInsert r c (Value.str (pyStrCell (cellv r c)))) c
      = some (Value.str (pyStrCell (cellv r c))) := cellv_dictInsert_self _ _ _
  simp only [rowCoerce, h1]
  by_cases h : trimS (pyStrCell (cellv r c)) = ""
  · simp only [if_pos h, cellv_filter_self]
    rfl
  · simp only [if_neg h, h1, textOrMissing]

theorem rowCoerce_cell_other (c c2 : String) (r : Row) (h : c ≠ c2) :
    cellv (rowCoerce c2 r) c = cellv r c := by
  have h1 : cellv (dictInsert r c2 (Value.str (pyStrCell (cellv r c2)))) c2
      = some (Value.str (pyStrCell (cellv r c2))) := cellv_dictInsert_self _ _ _
  simp only [rowCoerce, h1]
  by_cases hb : trimS (pyStrCell (cellv r c2)) = ""
  · simp only [if_pos hb]
    rw [cellv_filter_ne _ _ _ h]
    exact cellv_dictInsert_ne _ _ _ _ h
  · simp only [if_neg hb]
    exact cellv_dictInsert_ne _ _ _ _ h

theorem rowCoerceFold_notmem (cs : List String) (c : String) (r : Row)
    (h : c ∉ cs) :
    cellv (rowCoerceFold cs r) c = cellv r c := by
  induction cs generalizing r with
  | nil => rfl
  | cons c2 cs ih =>
      have hne : c ≠ c2 := fun he => h (by rw [he]; exact List.mem_cons_self _ _)
      have htl : c ∉ cs := fun he => h (List.mem_cons_of_mem _ he)
      show cellv (rowCoerceFold cs (rowCoerce c2 r)) c = cellv r c
      rw [ih (rowCoerce c2 r) htl]
      exact rowCoerce_cell_other _ _ _ hne

theorem textOrMissing_rowCoerce_keep (c c2 : String) (r : Row)
    (h : textOrMissing (cellv r c) = true) :
    textOrMissing (cellv (rowCoerce c2 r) c) = true := by
  by_cases he : c = c2
  · rw [he]; exact rowCoerce_cell_self _ _
  · rw [rowCoerce_cell_other _ _ _ he]; exact h

theorem rowCoerceFold_mem (cs : List String) (c : String) (r : Row)
    (h : c ∈ cs) :
    textOrMissing (cellv (rowCoerceFold cs r) c) = true := by
  induction cs generalizing r with
  | nil => cases h
  | cons c2 cs ih =>
      show textOrMissing (cellv (rowCoerceFold cs (rowCoerce c2 r)) c) = true
      by_cases htl : c ∈ cs
      · exact ih (rowCoerce c2 r) htl
      · have he : c = c2 := by
          rcases List.mem_cons.mp h with h1 | h1
          · exact h1
          · exact absurd h1 htl
        rw [rowCoerceFold_notmem cs c _ htl, he]
        exact rowCoerce_cell_self _ _

/-- C6: after the per-file loop of `parse_sinton_fmt_metadata`, the coercion
stage leaves every non-array column holding text: each of its cells is either
a non-blank string or has been turned into a missing value because it was
blank after the string coercion; the array columns are exempt — the coercion
fold leaves their cells exactly as aggregated. -/
theorem C6_text_coercion (p : InstrumentDataParser) (fs : FS) (df : DF)
    (c : String) (r : Row) :
    (sintonCoerced p fs = some df → c ∈ df.cols → c ∉ p.arrays →
       r ∈ df.rows → textOrMissing (cellv r c) = true)
  ∧ (∀ (df0 : DF) (r0 : Row), (sintonAgg p fs).1 = some df0 → r0 ∈ df0.rows →
       c ∈ p.arrays →
       cellv (rowCoerceFold (nonArrayColsOf p.arrays df0) r0) c = cellv r0 c) := by
  constructor
  · intro h hc ha hr
    unfold sintonCoerced at h
    rcases Option.map_eq_some'.mp h with ⟨df0, _, hmap⟩
    subst hmap
    rw [coerceNonArrayCols_rows] at hr
    rcases List.mem_map.mp hr with ⟨r0, _, hre⟩
    subst hre
    rw [coerceNonArrayCols_cols] at hc
    have hmem : c ∈ nonArrayColsOf p.arrays df0 := by
      unfold nonArrayColsOf
      rw [List.mem_filter]
      refine ⟨hc, ?_⟩
      simp only [decide_not]
      simp [ha]
    exact rowCoerceFold_mem _ _ _ hmem
  · intro df0 r0 _ _ ha
    apply rowCoerceFold_notmem
    intro hmem
    unfold nonArrayColsOf at hmem
    rw [List.mem_filter] at hmem
    rcases hmem with ⟨_, hpred⟩
    simp only [decide_not] at hpred
    simp at hpred
    exact hpred ha

theorem enumRows_mem :
    ∀ (i : Nat) (l : List Row) (x : Nat × Row), x ∈ enumRows i l → x.2 ∈ l := by
  intro i l
  induction l generalizing i with
  | nil => intro x hx; cases hx
  | cons r rs ih =>
      intro x hx
      rcases List.mem_cons.mp hx with h1 | h1
      · rw [h1]; exact List.mem_cons_self _ _
      · exact List.mem_cons_of_mem _ (ih (i + 1) x h1)

/-- C2 (amended): in `parse_image_metadata` a column with a missing value in
any aggregated row is dropped from the returned table (the drop happens once,
after the loop, before the `camera` and `index` columns are added); in
`parse_sinton_fmt_metadata` every column of the returned table is fully
populated — but, as the counterexample shows, a column missing from some
records survives there, carrying the text `"nan"`, because the string
coercion turns the missing values into non-blank text before the drop. -/
theorem C2_column_drop (p : InstrumentDataParser) (fs : FS) (df : DF) (r : Row)
    (c : String) :
    ((imageAgg p fs).1 = some df → r ∈ df.rows → cellv r c = none →
       c ≠ "index" → c ≠ "camera" → c ∉ ((p.parse_image_metadata fs).1.1).cols)
  ∧ (∀ (c2 : String) (r2 : Row), c2 ∈ ((p.parse_sinton_fmt_metadata fs).1.1).cols →
       r2 ∈ ((p.parse_sinton_fmt_metadata fs).1.1).rows →
       (cellv r2 c2).isSome = true) := by
  constructor
  · intro h hr hcell hni hnc hmem
    show False
    have hmem2 : c ∈ (postImage (imageAgg p fs).1).cols := hmem
    rw [h] at hmem2
    simp only [postImage, resetIndex, addConstCol, keepPresentCols,
      dropAllNACols] at hmem2
    rcases List.mem_cons.mp hmem2 with h1 | h1
    · exact hni h1
    have hbase : c ∈ ((DF.mk (List.filter (fun c => ¬ colAllNA df c) df.cols)
        df.rows).cols.filter
          (fun c2 => colAllPresent (DF.mk (List.filter (fun c => ¬ colAllNA df c) df.cols)
            df.rows) c2)) := by
      by_cases hcase : ((DF.mk (List.filter (fun c => ¬ colAllNA df c) df.cols)
          df.rows).cols.filter
            (fun c2 => colAllPresent (DF.mk (List.filter (fun c => ¬ colAllNA df c) df.cols)
              df.rows) c2)).contains "camera"
      · rw [if_pos hcase] at h1
        exact h1
      · rw [if_neg hcase] at h1
        rcases List.mem_append.mp h1 with h2 | h2
        · exact h2
        · exact absurd (by simpa using h2) hnc
    rw [List.mem_filter] at hbase
    rcases hbase with ⟨_, hall⟩
    have := (List.all_eq_true.mp hall) r hr
    rw [hcell] at this
    simp at this
  · intro c2 r2 hc2 hr2
    show (cellv r2 c2).isSome = true
    have hc2b : c2 ∈ (postSinton p.arrays (sintonAgg p fs).1).cols := hc2
    have hr2b : r2 ∈ (postSinton p.arrays (sintonAgg p fs).1).rows := hr2
    cases hagg : (sintonAgg p fs).1 with
    | none =>
        rw [hagg] at hc2b
        cases hc2b
    | some df0 =>
        rw [hagg] at hc2b hr2b
        simp only [postSinton, resetIndex, keepPresentCols] at hc2b hr2b
        rcases List.mem_map.mp hr2b with ⟨pair, hpair, hre⟩
        subst hre
        by_cases hidx : c2 = "index"
        · rw [hidx, cellv_cons]
          simp
        · rw [cellv_cons, if_neg (by simpa using fun he => hidx he.symm)]
          rcases List.mem_cons.mp hc2b with h1 | h1
          · exact absurd h1 hidx
          rw [List.mem_filter] at h1
          rcases h1 with ⟨_, hall⟩
          have hmemrow : pair.2 ∈ (coerceNonArrayCols p.arrays df0).rows :=
            enumRows_mem 0 _ pair hpair
          have := (List.all_eq_true.mp hall) pair.2 hmemrow
          exact this

/-- C4 (amended): for a path whose extension is neither of the two supported
image types, `extract_image_metadata` falls through both branches and returns
Python `None` — no metadata and no error — rather than an empty mapping. -/
theorem C4_unsupported_extension (fs : FS) (file : String)
    (h1 : endsWithS file ".jpg" = false) (h2 : endsWithS file ".tif" = false) :
    extract_image_metadata fs file = Except.ok none := by
  simp [extract_image_metadata, h1, h2]

/-- C5: the code is a slip against the documented intent.  For the raw file
`farm.mfr` with companion base name `farm` present among the text files, the
lookup key `'farm.mfr'.replace('IVT','').strip('.mfr')` evaluates to `"a"`
(Python `strip` removes a character set, not a suffix), so the companion is
missed and `txt_file` is set to `"N/A"`, although the extension replacement
itself would have produced the expected `farm.txt`. -/
theorem C5_companion_match_bug :
    txt_file_value "farm.mfr" ["farm"] = "N/A"
  ∧ stripCharsS (replaceS "farm.mfr" "IVT" "") ".mfr" = "a"
  ∧ ("farm" ∈ ["farm"])
  ∧ replaceS "farm.mfr" "mfr" "txt" = "farm.txt" := by
  refine ⟨by decide, by decide, by decide, by decide⟩

/-! ## C3: fixed grid length -/

def arrLenOf : Option Value → Option Nat
  | some (Value.arr a) => some a.length
  | _ => none

def bytesLenOfEx : Except String Row → String → Option Nat
  | Except.ok r, c =>
      match cellv r c with
      | some (Value.bytes b) => some b.length
      | _ => none
  | Except.error _, _ => none

set_option maxHeartbeats 1000000 in
/-- C3: whenever interpolation succeeds on a corrected record, the
interpolated current, voltage and intensity arrays all have the configured
fixed grid length, whatever the input sample count, and the orchestrator's
serialization loop turns each of them into a raw byte buffer of that same
length. -/
theorem C3_fixed_grid (d : RawData) (out : Row)
    (h : interpolate_load_data d = Except.ok out) :
    arrLenOf (cellv out "isc_array_interp") = some interp_grid_size
  ∧ arrLenOf (cellv out "voc_array_interp") = some interp_grid_size
  ∧ arrLenOf (cellv out "intensity_array") = some interp_grid_size
  ∧ bytesLenOfEx (toBytesAll parser_arrays out) "isc_array_interp"
      = some interp_grid_size
  ∧ bytesLenOfEx (toBytesAll parser_arrays out) "voc_array_interp"
      = some interp_grid_size
  ∧ bytesLenOfEx (toBytesAll parser_arrays out) "intensity_array"
      = some interp_grid_size := by
  unfold interpolate_load_data at h
  split at h
  · exact Except.noConfusion h
  split at h
  · exact Except.noConfusion h
  injection h with h2
  subst h2
  exact ⟨rfl, rfl, rfl, rfl, rfl, rfl⟩

/-! ## C7: date reparsing -/

theorem firstSomeL_at {α β : Type} (dflt : α) :
    ∀ (l : List α) (f : α → Option β) (i : Nat) (b : β),
      i < l.length →
      ((l.take i).all (fun a => (f a).isNone)) = true →
      f (l.getD i dflt) = some b →
      firstSomeL l f = some b := by
  intro l
  induction l with
  | nil =>
      intro f i b h
      simp at h
  | cons x xs ih =>
      intro f i b hlen hall hget
      cases i with
      | zero =>
          rw [List.getD_cons_zero] at hget
          simp only [firstSomeL, hget]
      | succ i =>
          rw [List.getD_cons_succ] at hget
          simp only [List.take_succ_cons, List.all_cons, Bool.and_eq_true] at hall
          rcases hall with ⟨hx, hxs⟩
          cases hfx : f x with
          | some b2 => rw [hfx] at hx; simp at hx
          | none =>
              simp only [firstSomeL, hfx]
              exact ih f i b (by simpa using hlen) hxs hget

theorem firstSomeL_none {α β : Type} :
    ∀ (l : List α) (f : α → Option β),
      (l.all (fun a => (f a).isNone)) = true → firstSomeL l f = none := by
  intro l
  induction l with
  | nil => intro f _; rfl
  | cons x xs ih =>
      intro f hall
      simp only [List.all_cons, Bool.and_eq_true] at hall
      rcases hall with ⟨hx, hxs⟩
      cases hfx : f x with
      | some b2 => rw [hfx] at hx; simp at hx
      | none =>
          simp only [firstSomeL, hfx]
          exact ih f hxs

def dateStep (df : DF) (racc : Row) (c : String) : Row :=
  if isDateTimeNamed c ∧ colDtypeObject df c then
    dictInsert racc c (parse_date (cellv racc c))
  else racc

theorem formatRowDates_eq_fold (df : DF) (r : Row) :
    formatRowDates df r = df.cols.foldl (dateStep df) r := rfl

theorem dateStep_cell_ne (df : DF) (r : Row) (c c2 : String) (h : c ≠ c2) :
    cellv (dateStep df r c2) c = cellv r c := by
  unfold dateStep
  split
  · exact cellv_dictInsert_ne _ _ _ _ h
  · rfl

theorem dateFold_notmem (df : DF) (cols : List String) (c : String) (r : Row)
    (h : c ∉ cols) :
    cellv (cols.foldl (dateStep df) r) c = cellv r c := by
  induction cols generalizing r with
  | nil => rfl
  | cons c2 cs ih =>
      have hne : c ≠ c2 := fun he => h (by rw [he]; exact List.mem_cons_self _ _)
      have htl : c ∉ cs := fun he => h (List.mem_cons_of_mem _ he)
      show cellv (cs.foldl (dateStep df) (dateStep df r c2)) c = cellv r c
      rw [ih (dateStep df r c2) htl]
      exact dateStep_cell_ne _ _ _ _ hne

theorem dateFold_cell (df : DF) (cols : List String) (c : String) :
    ∀ r : Row, cols.Nodup → c ∈ cols → isDateTimeNamed c = true →
      colDtypeObject df c = true →
      cellv (cols.foldl (dateStep df) r) c = some (parse_date (cellv r c)) := by
  induction cols with
  | nil => intro r _ hc; cases hc
  | cons c2 cs ih =>
      intro r hnd hc hdt hobj
      rcases List.nodup_cons.mp hnd with ⟨hc2notin, hndtl⟩
      by_cases he : c = c2
      · subst he
        show cellv (cs.foldl (dateStep df) (dateStep df r c)) c = _
        have hstep : cellv (dateStep df r c) c = some (parse_date (cellv r c)) := by
          unfold dateStep
          rw [if_pos ⟨hdt, hobj⟩]
          exact cellv_dictInsert_self _ _ _
        rw [dateFold_notmem df cs c _ hc2notin]
        exact hstep
      · have hmem2 : c ∈ cs := by
          rcases List.mem_cons.mp hc with h1 | h1
          · exact absurd h1 he
          · exact h1
        show cellv (cs.foldl (dateStep df) (dateStep df r c2)) c = _
        rw [ih (dateStep df r c2) hndtl hmem2 hdt hobj]
        rw [dateStep_cell_ne _ _ _ _ he]

def isStrV : Value → Bool
  | Value.str _ => true
  | _ => false

/-- C7: in the formatted view every date/time-named object column is mapped
cell-wise through `parse_date`, which tries the ordered candidate format list
and returns the parse of the first format that succeeds; when no candidate
parses — or the cell is missing or not a string — the result is the explicit
`NaT` marker and never an error. -/
theorem C7_date_reparse (df : DF) (c : String) (r : Row) (s : String)
    (d : DateTime) (i : Nat) :
    ((format_dataframe_dates df).rows = df.rows.map (formatRowDates df))
  ∧ (df.cols.Nodup → c ∈ df.cols → isDateTimeNamed c = true →
       colDtypeObject df c = true →
       cellv (formatRowDates df r) c = some (parse_date (cellv r c)))
  ∧ (i < date_formats.length →
       ((date_formats.take i).all
          (fun fmt => (strptime (trimS s) fmt).isNone)) = true →
       strptime (trimS s) (date_formats.getD i []) = some d →
       parse_date (some (Value.str s)) = Value.dt d)
  ∧ ((date_formats.all (fun fmt => (strptime (trimS s) fmt).isNone)) = true →
       parse_date (some (Value.str s)) = Value.NaT)
  ∧ (parse_date none = Value.NaT)
  ∧ (∀ v : Value, isStrV v = false → parse_date (some v) = Value.NaT) := by
  refine ⟨rfl, ?_, ?_, ?_, rfl, ?_⟩
  · intro hnd hc hdt hobj
    rw [formatRowDates_eq_fold]
    exact dateFold_cell df df.cols c r hnd hc hdt hobj
  · intro h1 h2 h3
    have hfs := firstSomeL_at ([] : List FTok) date_formats
      (fun fmt => strptime (trimS s) fmt) i d h1 h2 h3
    simp only [parse_date, hfs]
  · intro hall
    have hfs := firstSomeL_none date_formats (fun fmt => strptime (trimS s) fmt) hall
    simp only [parse_date, hfs]
  · intro v hv
    cases v with
    | str s2 => simp [isStrV] at hv
    | int n => rfl
    | arr a => rfl
    | bytes b => rfl
    | dt d2 => rfl
    | NaT => rfl

/-! ## C8: array summaries -/

def stableViewCell : Option Value → Bool
  | some (Value.arr _) => false
  | _ => true

theorem viewCell_stable (v : Value) (h : stableViewCell (some v) = true) :
    viewCell v = v := by
  cases v with
  | arr a => simp [stableViewCell] at h
  | str s => rfl
  | int n => rfl
  | bytes b => rfl
  | dt d => rfl
  | NaT => rfl

theorem viewStep_cell_ne (dfcols : List String) (r : Row) (c c2 : String)
    (h : c ≠ c2) :
    cellv (viewStep dfcols r c2) c = cellv r c := by
  unfold viewStep
  split
  · cases hcv : cellv r c2 with
    | none => rfl
    | some v => exact cellv_dictInsert_ne _ _ _ _ h
  · rfl

theorem viewStep_cell_self_stable (dfcols : List String) (r : Row) (c : String)
    (h : stableViewCell (cellv r c) = true) :
    cellv (viewStep dfcols r c) c = cellv r c := by
  unfold viewStep
  split
  · cases hcv : cellv r c with
    | none => exact hcv
    | some v =>
        rw [hcv] at h
        rw [cellv_dictInsert_self, viewCell_stable v h]
  · rfl

theorem viewRowFold_stable (dfcols cs : List String) (c : String) :
    ∀ r : Row, stableViewCell (cellv r c) = true →
      cellv (viewRowFold dfcols cs r) c = cellv r c := by
  induction cs with
  | nil => intro r _; rfl
  | cons c2 cs ih =>
      intro r h
      show cellv (viewRowFold dfcols cs (viewStep dfcols r c2)) c = cellv r c
      by_cases he : c = c2
      · subst he
        have hstep : cellv (viewStep dfcols r c) c = cellv r c :=
          viewStep_cell_self_stable dfcols r c h
        have := ih (viewStep dfcols r c) (by rw [hstep]; exact h)
        rw [this, hstep]
      · have hstep : cellv (viewStep dfcols r c2) c = cellv r c :=
          viewStep_cell_ne dfcols r c c2 he
        have := ih (viewStep dfcols r c2) (by rw [hstep]; exact h)
        rw [this, hstep]

theorem viewRowFold_arr (dfcols cs : List String) (c : String) (a : List Frac) :
    ∀ r : Row, c ∈ cs → dfcols.contains c = true →
      cellv r c = some (Value.arr a) →
      cellv (viewRowFold dfcols cs r) c = some (Value.str (summary_string a)) := by
  induction cs with
  | nil => intro r hmem; cases hmem
  | cons c2 cs ih =>
      intro r hmem hcol hcell
      by_cases he : c = c2
      · subst he
        have hstep : cellv (viewStep dfcols r c) c
            = some (Value.str (summary_string a)) := by
          unfold viewStep
          rw [if_pos hcol, hcell]
          exact cellv_dictInsert_self _ _ _
        have hst : stableViewCell (cellv (viewStep dfcols r c) c) = true := by
          rw [hstep]; rfl
        have := viewRowFold_stable dfcols cs c (viewStep dfcols r c) hst
        show cellv (viewRowFold dfcols cs (viewStep dfcols r c)) c = _
        rw [this, hstep]
      · have hmem2 : c ∈ cs := by
          rcases List.mem_cons.mp hmem with h1 | h1
          · exact absurd h1 he
          · exact h1
        show cellv (viewRowFold dfcols cs (viewStep dfcols r c2)) c = _
        apply ih (viewStep dfcols r c2) hmem2 hcol
        rw [viewStep_cell_ne dfcols r c c2 he]
        exact hcell

/-- C8 (amended): `create_viewable_dataframe` maps each listed column present
in the table cell-wise through the summary lambda, which replaces a value
with the `count, mean, std` summary string only when that value is a numpy
array; the raw byte buffers the parser actually stores in those columns are
not arrays and pass through unchanged. -/
theorem C8_array_summary (df : DF) (array_columns : List String) (c : String)
    (r : Row) (a b : List Frac) :
    ((create_viewable_dataframe df array_columns).rows
        = df.rows.map (viewRowFold df.cols array_columns))
  ∧ (c ∈ array_columns → df.cols.contains c = true →
       cellv r c = some (Value.arr a) →
       cellv (viewRowFold df.cols array_columns r) c
         = some (Value.str (summary_string a)))
  ∧ (cellv r c = some (Value.bytes b) →
       cellv (viewRowFold df.cols array_columns r) c = some (Value.bytes b)) := by
  refine ⟨rfl, ?_, ?_⟩
  · intro hmem hcol hcell
    exact viewRowFold_arr df.cols array_columns c a r hmem hcol hcell
  · intro hcell
    have hst : stableViewCell (cellv r c) = true := by rw [hcell]; rfl
    rw [viewRowFold_stable df.cols array_columns c r hst]
    exact hcell

/-! ## Concrete runs: counterexamples and witnesses -/

def pC1x : InstrumentDataParser := InstrumentDataParser.init ["d"] "db"

def fsC1xA : FS :=
  { walk := [("d", [⟨"C:\\d", "M1_C1_P1_T1.jpg"⟩])],
    exif := [("C:\\d\\M1_C1_P1_T1.jpg", TagRead.err "Exif read failure A")],
    tiff := [], mfr := [] }

def fsC1xB : FS :=
  { walk := [("d", [⟨"C:\\d", "M1_C1_P1_T1.jpg"⟩])],
    exif := [("C:\\d\\M1_C1_P1_T1.jpg", TagRead.err "Exif read failure B")],
    tiff := [], mfr := [] }

/-- C1 counterexample: the failure-list entry is the file path alone and does
not identify the reason — two runs whose only difference is the reason of the
per-file error produce identical failure lists. -/
theorem C1_counterexample :
    (pC1x.parse_image_metadata fsC1xA).1.2 = ["C:\\d\\M1_C1_P1_T1.jpg"]
  ∧ (pC1x.parse_image_metadata fsC1xB).1.2 = ["C:\\d\\M1_C1_P1_T1.jpg"]
  ∧ imageRow fsC1xA "C:\\d\\M1_C1_P1_T1.jpg" = Except.error "Exif read failure A"
  ∧ imageRow fsC1xB "C:\\d\\M1_C1_P1_T1.jpg" = Except.error "Exif read failure B"
  ∧ (pC1x.parse_image_metadata fsC1xA).1.2 = (pC1x.parse_image_metadata fsC1xB).1.2 :=
  ⟨rfl, rfl, rfl, rfl, rfl⟩

def pC2x : InstrumentDataParser := InstrumentDataParser.init ["s"] "db"

def fsC2x : FS :=
  { walk := [("s", [⟨"C:\\s", "A1_B1_C1_D1.mfr"⟩, ⟨"C:\\s", "A2_B2_C2_D2.mfr"⟩])],
    exif := [], tiff := [],
    mfr := [("C:\\s\\A1_B1_C1_D1.mfr",
      { isc_raw := [5, 5], voc_raw := [7, 7], intensity := [1, 1], vload := [0, 1],
        headerLines := ["alpha=\"x\"", "extra=\"v\""] }),
      ("C:\\s\\A2_B2_C2_D2.mfr",
      { isc_raw := [4, 4], voc_raw := [6, 6], intensity := [1, 1], vload := [0, 1],
        headerLines := ["alpha=\"y\""] })] }

/-- C2 counterexample: a header column present in the first record but
missing from the second is not dropped by `parse_sinton_fmt_metadata` — it
survives in the returned table with the literal text `"nan"` in the row it
was missing from, because `astype(str)` renders the missing value as the
non-blank string `'nan'` before the drop. -/
theorem C2_counterexample :
    ("extra" ∈ ((pC2x.parse_sinton_fmt_metadata fsC2x).1.1).cols)
  ∧ (cellv (((pC2x.parse_sinton_fmt_metadata fsC2x).1.1).rows.getD 1 []) "extra"
      = some (Value.str "nan"))
  ∧ (cellv ((optRows (sintonAgg pC2x fsC2x).1).getD 1 []) "extra" = none)
  ∧ ((pC2x.parse_sinton_fmt_metadata fsC2x).1.1).rows.length = 2 :=
  ⟨by decide, by decide, by decide, by decide⟩

def pC2w : InstrumentDataParser := InstrumentDataParser.init ["d"] "db"

def fsC2w : FS :=
  { walk := [("d", [⟨"C:\\d", "M1_C1_P1_T1.jpg"⟩, ⟨"C:\\d", "M2_C2_P2_T2.jpg"⟩])],
    exif := [("C:\\d\\M1_C1_P1_T1.jpg", TagRead.tags [("Make", "X"), ("Sp", "Y")]),
             ("C:\\d\\M2_C2_P2_T2.jpg", TagRead.tags [("Make", "Z")])],
    tiff := [], mfr := [] }

def dfC2w : DF := (imageAgg pC2w fsC2w).1.getD emptyDF

def rC2w : Row := dfC2w.rows.getD 1 []

def pC2ws : InstrumentDataParser := InstrumentDataParser.init ["s"] "db"

def fsC2ws : FS :=
  { walk := [("s", [⟨"C:\\s", "A1_B1_C1_D1.mfr"⟩])],
    exif := [], tiff := [],
    mfr := [("C:\\s\\A1_B1_C1_D1.mfr",
      { isc_raw := [5, 5], voc_raw := [7, 7], intensity := [1, 1], vload := [0, 1],
        headerLines := ["alpha=\"x\""] })] }

def rC2ws : Row := ((pC2ws.parse_sinton_fmt_metadata fsC2ws).1.1).rows.getD 0 []

theorem C2_column_drop_witness :
    ("Sp" ∉ ((pC2w.parse_image_metadata fsC2w).1.1).cols)
  ∧ ((cellv rC2ws "alpha").isSome = true) :=
  ⟨(C2_column_drop pC2w fsC2w dfC2w rC2w "Sp").1 (by decide) (by decide) (by decide)
      (by decide) (by decide),
   (C2_column_drop pC2ws fsC2ws emptyDF [] "x").2 "alpha" rC2ws (by decide) (by decide)⟩

def dC3w : RawData :=
  ⟨[1, 2, 3, 4, 5], [9, 8, 7, 6, 5], [2, 2, 2, 2, 2], [0, 1, 2, 3, 4]⟩

def outC3w : Row :=
  match interpolate_load_data dC3w with
  | Except.ok r => r
  | Except.error _ => []

set_option maxHeartbeats 1000000 in
theorem C3_fixed_grid_witness :
    arrLenOf (cellv outC3w "isc_array_interp") = some interp_grid_size
  ∧ arrLenOf (cellv outC3w "voc_array_interp") = some interp_grid_size
  ∧ arrLenOf (cellv outC3w "intensity_array") = some interp_grid_size
  ∧ bytesLenOfEx (toBytesAll parser_arrays outC3w) "isc_array_interp"
      = some interp_grid_size
  ∧ bytesLenOfEx (toBytesAll parser_arrays outC3w) "voc_array_interp"
      = some interp_grid_size
  ∧ bytesLenOfEx (toBytesAll parser_arrays outC3w) "intensity_array"
      = some interp_grid_size :=
  C3_fixed_grid dC3w outC3w rfl

def fsC4x : FS := ⟨[], [], [], []⟩

/-- C4 counterexample: for an unsupported extension the function returns
Python `None` — not an empty mapping as the claim states. -/
theorem C4_counterexample :
    extract_image_metadata fsC4x "C:\\d\\scan.png" = Except.ok none
  ∧ extract_image_metadata fsC4x "C:\\d\\scan.png"
      ≠ Except.ok (some ([] : List (String × String))) := by
  constructor
  · rfl
  · show (Except.ok none : Except String (Option (List (String × String))))
        ≠ Except.ok (some [])
    simp

theorem C4_unsupported_extension_witness :
    extract_image_metadata fsC4x "C:\\d\\scan.png" = Except.ok none :=
  C4_unsupported_extension fsC4x "C:\\d\\scan.png" (by decide) (by decide)

def pC6w : InstrumentDataParser := InstrumentDataParser.init ["s"] "db"

def fsC6w : FS :=
  { walk := [("s", [⟨"C:\\s", "A1_B1_C1_D1.mfr"⟩])],
    exif := [], tiff := [],
    mfr := [("C:\\s\\A1_B1_C1_D1.mfr",
      { isc_raw := [5, 5], voc_raw := [7, 7], intensity := [1, 1], vload := [0, 1],
        headerLines := ["alpha=\"x\"", "beta=\"\""] })] }

def dfC6w : DF := (sintonCoerced pC6w fsC6w).getD emptyDF

def rC6w : Row := dfC6w.rows.getD 0 []

def df0C6w : DF := (sintonAgg pC6w fsC6w).1.getD emptyDF

def r0C6w : Row := df0C6w.rows.getD 0 []

theorem C6_text_coercion_witness :
    (textOrMissing (cellv rC6w "alpha") = true)
  ∧ (cellv (rowCoerceFold (nonArrayColsOf pC6w.arrays df0C6w) r0C6w) "isc_array_raw"
      = cellv r0C6w "isc_array_raw") :=
  ⟨(C6_text_coercion pC6w fsC6w dfC6w "alpha" rC6w).1 (by decide) (by decide)
      (by decide) (by decide),
   (C6_text_coercion pC6w fsC6w dfC6w "isc_array_raw" rC6w).2 df0C6w r0C6w
      (by decide) (by decide) (by decide)⟩

def dfC7w : DF := ⟨["Test Date"], [[("Test Date", Value.str "2024-03-15")]]⟩

def rC7w : Row := [("Test Date", Value.str "2024-03-15")]

theorem C7_date_reparse_witness :
    (cellv (formatRowDates dfC7w rC7w) "Test Date"
        = some (parse_date (cellv rC7w "Test Date")))
  ∧ (parse_date (some (Value.str "2024-03-15")) = Value.dt ⟨2024, 3, 15, 0, 0, 0⟩)
  ∧ (parse_date (some (Value.str "not a date")) = Value.NaT)
  ∧ (parse_date (some (Value.int 7)) = Value.NaT) :=
  ⟨(C7_date_reparse dfC7w "Test Date" rC7w "x" ⟨1900, 1, 1, 0, 0, 0⟩ 0).2.1
      (by decide) (by decide) (by decide) (by decide),
   (C7_date_reparse dfC7w "Test Date" rC7w "2024-03-15" ⟨2024, 3, 15, 0, 0, 0⟩ 1).2.2.1
      (by decide) (by decide) (by decide),
   (C7_date_reparse dfC7w "Test Date" rC7w "not a date" ⟨1900, 1, 1, 0, 0, 0⟩ 0).2.2.2.1
      (by decide),
   (C7_date_reparse dfC7w "Test Date" rC7w "x" ⟨1900, 1, 1, 0, 0, 0⟩ 0).2.2.2.2.2
      (Value.int 7) (by decide)⟩

def dfC8w : DF := ⟨["x", "y"], [[("x", Value.arr [1, 3]), ("y", Value.bytes [2, 4])]]⟩

def rC8w : Row := [("x", Value.arr [1, 3]), ("y", Value.bytes [2, 4])]

theorem C8_array_summary_witness :
    (cellv (viewRowFold dfC8w.cols ["x", "y"] rC8w) "x"
        = some (Value.str (summary_string [1, 3])))
  ∧ (cellv (viewRowFold dfC8w.cols ["x", "y"] rC8w) "y"
        = some (Value.bytes [2, 4])) :=
  ⟨(C8_array_summary dfC8w ["x", "y"] "x" rC8w [1, 3] []).2.1 (by decide)
      (by decide) (by decide),
   (C8_array_summary dfC8w ["x", "y"] "y" rC8w [] [2, 4]).2.2 (by decide)⟩

def pC8x : InstrumentDataParser := InstrumentDataParser.init ["s"] "db"

def fsC8x : FS :=
  { walk := [("s", [⟨"C:\\s", "A1_B1_C1_D1.mfr"⟩])],
    exif := [], tiff := [],
    mfr := [("C:\\s\\A1_B1_C1_D1.mfr",
      { isc_raw := [5, 5], voc_raw := [7, 7], intensity := [1, 1], vload := [0, 1],
        headerLines := ["alpha=\"x\""] })] }

def tblC8x : DF := (pC8x.parse_sinton_fmt_metadata fsC8x).1.1

def rT8x : Row := tblC8x.rows.getD 0 []

def rV8x : Row := (create_viewable_dataframe tblC8x pC8x.arrays).rows.getD 0 []

def isBytesO : Option Value → Bool
  | some (Value.bytes _) => true
  | _ => false

def isStrO : Option Value → Bool
  | some (Value.str _) => true
  | _ => false

/-- C8 counterexample: applied to the table `parse_sinton_fmt_metadata`
produced, `create_viewable_dataframe` leaves the array column untouched: the
stored value is a raw byte buffer, not a numpy array, so the
`isinstance(x, np.ndarray)` guard never fires and no summary string appears. -/
theorem C8_counterexample :
    (cellv rV8x "isc_array_interp" = cellv rT8x "isc_array_interp")
  ∧ (isBytesO (cellv rT8x "isc_array_interp") = true)
  ∧ (isStrO (cellv rV8x "isc_array_interp") = false) :=
  ⟨by decide, by decide, by decide⟩
